import Mathlib

/-!
Shallow embedding of the USB descriptor subsystem of libhal: the
`usb_class_code` and `descriptor_type` enumerations, `usb_interface` with its
`interface_settings` registry, the `pack_u16_le` helper and
`usb_configuration`.  Machine bytes are modelled as `Nat`; an explicit
`% 65536` appears exactly where the C++ code performs `u16` arithmetic and an
explicit `% 256` exactly where a wider value is narrowed to a byte.  Throwing
constructors and member functions are modelled with `Except` / an explicit
error field; the indeterminate initial contents of the stack-allocated
`std::array<byte, 9>` headers are modelled by an `init` parameter holding the
bytes the array happens to start with.
-/

namespace hal

/-- the single error condition raised by this subsystem
(`hal::argument_out_of_domain`). -/
inductive hal_error
  | argument_out_of_domain
  deriving DecidableEq, Repr

/-- the `usb_class_code` enumeration, with the wire values assigned in the
source. -/
inductive usb_class_code
  | USE_INTERFACE_DESCRIPTOR
  | AUDIO_DEVICE
  | CDC_CONTROL
  | HID
  | PHYSICAL
  | IMAGE
  | PRINTER
  | MASS_STORAGE
  | HUB
  | CDC_DATA
  | SMART_CARD
  | CONTENT_SECURITY
  | VIDEO
  | PERSONAL_HEALTHCARE
  | AUDIO_VIDEO
  | BILLBOARD
  | USB_C_BRIDGE
  | BULK_DISPLAY
  | MCTP
  | I3C
  | DIAGNOSTIC
  | WIRELESS_CONTROLLER
  | MISC
  | APPLICATION_SPECIFIC
  | VENDOR_SPECIFIC
  deriving DecidableEq, Repr

/-- numeric (`u8`) value of each `usb_class_code` enumerator. -/
def usb_class_code.toU8 : usb_class_code → Nat
  | .USE_INTERFACE_DESCRIPTOR => 0x00
  | .AUDIO_DEVICE => 0x01
  | .CDC_CONTROL => 0x02
  | .HID => 0x03
  | .PHYSICAL => 0x05
  | .IMAGE => 0x06
  | .PRINTER => 0x07
  | .MASS_STORAGE => 0x08
  | .HUB => 0x09
  | .CDC_DATA => 0x0A
  | .SMART_CARD => 0x0B
  | .CONTENT_SECURITY => 0x0D
  | .VIDEO => 0x0E
  | .PERSONAL_HEALTHCARE => 0x0F
  | .AUDIO_VIDEO => 0x10
  | .BILLBOARD => 0x11
  | .USB_C_BRIDGE => 0x12
  | .BULK_DISPLAY => 0x13
  | .MCTP => 0x14
  | .I3C => 0x3C
  | .DIAGNOSTIC => 0xDC
  | .WIRELESS_CONTROLLER => 0xE0
  | .MISC => 0xEF
  | .APPLICATION_SPECIFIC => 0xFE
  | .VENDOR_SPECIFIC => 0xFF

/-- the `descriptor_type` enumeration (`bDescriptorType` values). -/
inductive descriptor_type
  | DEVICE
  | CONFIGURATION
  | STRING
  | INTERFACE
  | ENDPOINT
  | DEVICE_QUALIFIER
  | OTHER_SPEED_CONFIGURATION
  | INTERFACE_POWER
  | OTG
  | DEBUG
  | INTERFACE_ASSOCIATION
  | SECURITY
  | KEY
  | ENCRYPTION_TYPE
  | BOS
  | DEVICE_CAPABILITY
  | WIRELESS_ENDPOINT_COMPANION
  | SUPERSPEED_ENDPOINT_COMPANION
  | SUPERSPEED_ENDPOINT_ISOCHRONOUS_COMPANION
  deriving DecidableEq, Repr

/-- numeric (`byte`) value of each `descriptor_type` enumerator. -/
def descriptor_type.toByte : descriptor_type → Nat
  | .DEVICE => 0x1
  | .CONFIGURATION => 0x2
  | .STRING => 0x3
  | .INTERFACE => 0x4
  | .ENDPOINT => 0x5
  | .DEVICE_QUALIFIER => 0x6
  | .OTHER_SPEED_CONFIGURATION => 0x7
  | .INTERFACE_POWER => 0x8
  | .OTG => 0x9
  | .DEBUG => 0xA
  | .INTERFACE_ASSOCIATION => 0xB
  | .SECURITY => 0xC
  | .KEY => 0xD
  | .ENCRYPTION_TYPE => 0xE
  | .BOS => 0xF
  | .DEVICE_CAPABILITY => 0x10
  | .WIRELESS_ENDPOINT_COMPANION => 0x11
  | .SUPERSPEED_ENDPOINT_COMPANION => 0x30
  | .SUPERSPEED_ENDPOINT_ISOCHRONOUS_COMPANION => 0x31

/-- value type `usb_interface::interface_settings`: endpoint count, class,
subclass, protocol and string index of one alternate setting.  All numeric
fields are `u8` in the source. -/
structure interface_settings where
  m_num_endpoints : Nat
  m_class : usb_class_code
  m_subclass : Nat
  m_protocol : Nat
  m_str_name_idx : Nat
  deriving DecidableEq, Repr

/-- the throwing constructor of `interface_settings`: rejects the three class
codes that are illegal for an interface with `argument_out_of_domain`,
otherwise stores the supplied fields. -/
def interface_settings.make (p_num_endpoints : Nat) (p_class : usb_class_code)
    (p_subclass : Nat) (p_protocol : Nat) (p_str_name_idx : Nat) :
    Except hal_error interface_settings :=
  if p_class = .USE_INTERFACE_DESCRIPTOR ∨ p_class = .HUB ∨
      p_class = .BILLBOARD then
    .error .argument_out_of_domain
  else
    .ok { m_num_endpoints := p_num_endpoints, m_class := p_class,
          m_subclass := p_subclass, m_protocol := p_protocol,
          m_str_name_idx := p_str_name_idx }

/-- state of a `usb_interface`: the 9-byte packed header, the settings
registry (span of index/settings pairs) and the selected setting member.
The `usb_control_endpoint&` member carries no state observable here; the
writes performed through it are recorded in `set_setting_result`. -/
structure usb_interface where
  m_packed_data : List Nat
  m_settings : List (Nat × interface_settings)
  m_selected_setting_number : Nat
  deriving DecidableEq, Repr

/-- the lookup loop of `usb_interface::get_interface_setting`: first pair
whose key matches wins, `argument_out_of_domain` when the loop falls
through. -/
def get_interface_setting :
    List (Nat × interface_settings) → Nat → Except hal_error interface_settings
  | [], _ => .error .argument_out_of_domain
  | p :: rest, p_number =>
    if p.1 = p_number then .ok p.2 else get_interface_setting rest p_number

/-- outcome of one `set_setting` call: the interface state after the call,
the list of buffers written through `m_ctrl_endpoint` during the call, and
the error thrown, if any. -/
structure set_setting_result where
  state : usb_interface
  ctrl_writes : List (List Nat)
  err : Option hal_error
  deriving DecidableEq, Repr

/-- member function `usb_interface::set_setting`: looks the setting up (the
lookup throws on a missing index, before any store executes), then rewrites
header bytes 4 to 8 from the found setting and records the index as selected.
The source body contains no write through `m_ctrl_endpoint` (only the
trailing comment `Write out descriptor via ctrl endpoint`), so the
`ctrl_writes` trace of both branches is empty. -/
def usb_interface.set_setting (s : usb_interface) (p_number : Nat) :
    set_setting_result :=
  match get_interface_setting s.m_settings p_number with
  | .error e => { state := s, ctrl_writes := [], err := some e }
  | .ok iface_setting =>
    { state :=
        { s with
          m_packed_data :=
            ((((s.m_packed_data.set 4 iface_setting.m_num_endpoints).set 5
                iface_setting.m_class.toU8).set 6
                iface_setting.m_subclass).set 7 iface_setting.m_protocol).set 8
                iface_setting.m_str_name_idx,
          m_selected_setting_number := p_number },
      ctrl_writes := [], err := none }

/-- the throwing constructor of `usb_interface`: writes header bytes 0 to 3
(length 9, type `INTERFACE`, interface number, alternate setting 0) into the
indeterminate stack array `init`, then calls `set_setting 0`; a throw there
propagates and no object is produced.  `init_sel` is the indeterminate
initial value of `m_selected_setting_number`. -/
def usb_interface.construct (init : List Nat) (init_sel : Nat)
    (p_iface_number : Nat) (p_settings : List (Nat × interface_settings)) :
    Except hal_error usb_interface :=
  let d :=
    (((init.set 0 0x9).set 1 descriptor_type.INTERFACE.toByte).set 2
        p_iface_number).set 3 0
  let r :=
    usb_interface.set_setting
      { m_packed_data := d, m_settings := p_settings,
        m_selected_setting_number := init_sel } 0
  match r.err with
  | some e => .error e
  | none => .ok r.state

/-- accessor `usb_interface::get_interface_number`: returns
`m_packed_data[2]`. -/
def usb_interface.get_interface_number (s : usb_interface) : Nat :=
  s.m_packed_data.getD 2 0

/-- accessor `usb_interface::get_selected_setting_number`: returns the
member `m_selected_setting_number`. -/
def usb_interface.get_selected_setting_number (s : usb_interface) : Nat :=
  s.m_selected_setting_number

/-- states of a `usb_interface` reachable by a successful construction
followed by any sequence of successful `set_setting` calls. -/
inductive usb_interface.reachable : usb_interface → Prop
  | constructed {init : List Nat} {init_sel p_iface_number : Nat}
      {p_settings : List (Nat × interface_settings)} {s : usb_interface} :
      init.length = 9 →
      usb_interface.construct init init_sel p_iface_number p_settings = .ok s →
      usb_interface.reachable s
  | step {s : usb_interface} {i : Nat} :
      usb_interface.reachable s → (s.set_setting i).err = none →
      usb_interface.reachable (s.set_setting i).state

/-- helper `pack_u16_le`: packs a `u16` into two bytes, low byte first,
exactly as written in the source
(`p_dat & 0xFF` and `(p_dat & (0xFF << 8)) >> 8`). -/
def pack_u16_le (p_dat : Nat) : Nat × Nat :=
  (p_dat &&& 0xFF, (p_dat &&& (0xFF <<< 8)) >>> 8)

/-- abstraction of a concrete `usb_interface*` as `usb_configuration` sees
it: the result of the virtual `total_length()` and the chunks the virtual
`write_descriptors` pushes to the dispatch callback, in push order. -/
structure usb_interface_impl where
  total_length : Nat
  descriptor_stream : List (List Nat)
  deriving DecidableEq, Repr

/-- state of a `usb_configuration`: the borrowed interface sequence and the
9-byte packed header. -/
structure usb_configuration where
  m_ifaces : List usb_interface_impl
  m_packed_data : List Nat
  deriving DecidableEq, Repr

/-- constructor of `usb_configuration`: writes header bytes 0 (length 9),
1 (type `CONFIGURATION`), 2 and 3 (`wTotalLength`, accumulated in a `u16`,
hence `% 65536`, and packed little-endian), 4 (interface count, a `size_t`
narrowed to a byte, hence `% 256`), 7 (`bmAttributes`) and 8 (max power)
into the indeterminate stack array `init`.  Bytes 5 and 6 are never
assigned. -/
def usb_configuration.construct (init : List Nat)
    (p_ifaces : List usb_interface_impl) (p_self_powered : Bool)
    (p_remote_wakeup : Bool) (p_max_power : Nat) : usb_configuration :=
  let wTotalLength : Nat :=
    p_ifaces.foldl (fun w i => (w + i.total_length) % 65536) 9
  let packed_total_length := pack_u16_le wTotalLength
  let bmAttributes : Nat :=
    0x80 ||| ((if p_self_powered then 1 else 0) <<< 6) |||
      ((if p_remote_wakeup then 1 else 0) <<< 5)
  { m_ifaces := p_ifaces,
    m_packed_data :=
      ((((((init.set 0 9).set 1 descriptor_type.CONFIGURATION.toByte).set 2
          packed_total_length.1).set 3 packed_total_length.2).set 4
          (p_ifaces.length % 256)).set 7 bmAttributes).set 8 p_max_power }

/-- accessor `usb_configuration::get_total_length`: recombines header bytes
2 and 3 as `(u16)(b3 << 8) | (u16)b2`. -/
def usb_configuration.get_total_length (c : usb_configuration) : Nat :=
  ((c.m_packed_data.getD 3 0) <<< 8) % 65536 ||| (c.m_packed_data.getD 2 0)

/-- accessor `usb_configuration::get_interface_count`: header byte 4. -/
def usb_configuration.get_interface_count (c : usb_configuration) : Nat :=
  c.m_packed_data.getD 4 0

/-- accessor `usb_configuration::get_number`: header byte 5. -/
def usb_configuration.get_number (c : usb_configuration) : Nat :=
  c.m_packed_data.getD 5 0

/-- return type of `usb_configuration::get_attributes`. -/
structure config_attributes where
  self_powered : Bool
  remote_wakeup : Bool
  deriving DecidableEq, Repr

/-- accessor `usb_configuration::get_attributes`: decodes bits 6 and 5 of
header byte 7. -/
def usb_configuration.get_attributes (c : usb_configuration) :
    config_attributes :=
  let bm := c.m_packed_data.getD 7 0
  { self_powered := (bm &&& (1 <<< 6)) != 0,
    remote_wakeup := (bm &&& (1 <<< 5)) != 0 }

/-- accessor `usb_configuration::get_max_power`: header byte 8. -/
def usb_configuration.get_max_power (c : usb_configuration) : Nat :=
  c.m_packed_data.getD 8 0

/-- member function `usb_configuration::write_descriptors`: dispatches the
configuration's own 9 header bytes first, then each owned interface's
chunks, in sequence order.  The result is the list of chunks handed to the
dispatch callback, in invocation order. -/
def usb_configuration.write_descriptors (c : usb_configuration) :
    List (List Nat) :=
  c.m_packed_data ::
    (c.m_ifaces.map usb_interface_impl.descriptor_stream).flatten

/-!
Helper lemmas shared by the claim theorems below.
-/

/-- shifting right distributes over bitwise and. -/
theorem land_shiftRight (a b n : Nat) :
    (a &&& b) >>> n = a >>> n &&& b >>> n := by
  apply Nat.eq_of_testBit_eq
  intro i
  simp [Nat.testBit_shiftRight, Nat.testBit_and]

/-- low byte produced by `pack_u16_le`. -/
theorem pack_u16_le_fst (v : Nat) : (pack_u16_le v).1 = v % 256 := by
  have h := Nat.and_pow_two_sub_one_eq_mod v 8
  simpa [pack_u16_le] using h

/-- high byte produced by `pack_u16_le`. -/
theorem pack_u16_le_snd (v : Nat) : (pack_u16_le v).2 = v / 256 % 256 := by
  show (v &&& (0xFF <<< 8)) >>> 8 = v / 256 % 256
  rw [land_shiftRight]
  have h1 : (0xFF <<< 8 : Nat) >>> 8 = 255 := by decide
  rw [h1, Nat.shiftRight_eq_div_pow]
  have h2 := Nat.and_pow_two_sub_one_eq_mod (v / 2 ^ 8) 8
  norm_num at h2 ⊢
  exact h2

/-- oring a byte below an 8-bit shift is plain addition. -/
theorem shiftLeft_lor_small (q r : Nat) (hr : r < 256) :
    (q <<< 8) ||| r = q * 256 + r := by
  apply Nat.eq_of_testBit_eq
  intro i
  rw [Nat.testBit_or, Nat.testBit_shiftLeft]
  have h256 : (256 : Nat) = 2 ^ 8 := by norm_num
  have hmul : q * 256 + r = 2 ^ 8 * q + r := by rw [h256]; ring
  rw [hmul, Nat.testBit_mul_pow_two_add q (by omega : r < 2 ^ 8) i]
  by_cases hi : i < 8
  · simp [hi, Nat.not_le_of_lt hi]
  · have hfalse : r.testBit i = false := by
      apply Nat.testBit_lt_two_pow
      calc r < 256 := hr
        _ = 2 ^ 8 := by norm_num
        _ ≤ 2 ^ i := Nat.pow_le_pow_right (by norm_num) (by omega)
    simp [hi, hfalse, Nat.le_of_not_lt hi]

/-- the `u16` accumulation loop of the configuration constructor computes the
sum of the interface lengths modulo `2 ^ 16`. -/
theorem foldl_total_length_mod (ifaces : List usb_interface_impl) (a : Nat) :
    ifaces.foldl (fun w i => (w + i.total_length) % 65536) (a % 65536) =
      (a + (ifaces.map usb_interface_impl.total_length).sum) % 65536 := by
  induction ifaces generalizing a with
  | nil => simp
  | cons x xs ih =>
    simp only [List.foldl_cons, List.map_cons, List.sum_cons]
    rw [Nat.mod_add_mod, ih (a + x.total_length)]
    ring_nf

/-- decoding the two bytes of `pack_u16_le` as `get_total_length` does
reproduces any value below `2 ^ 16`. -/
theorem decode_pack_u16_le (W : Nat) (hW : W < 65536) :
    ((pack_u16_le W).2 <<< 8) % 65536 ||| (pack_u16_le W).1 = W := by
  rw [pack_u16_le_fst, pack_u16_le_snd]
  have hq : W / 256 % 256 = W / 256 := Nat.mod_eq_of_lt (by omega)
  rw [hq]
  have hlt : (W / 256) <<< 8 < 65536 := by
    rw [Nat.shiftLeft_eq]
    have : W / 256 < 256 := by omega
    norm_num
    omega
  rw [Nat.mod_eq_of_lt hlt, shiftLeft_lor_small _ _ (Nat.mod_lt _ (by norm_num))]
  omega

/-- a list of length nine is the literal list of its nine entries. -/
theorem exists_nine (l : List Nat) (h : l.length = 9) :
    ∃ b0 b1 b2 b3 b4 b5 b6 b7 b8 : Nat,
      l = [b0, b1, b2, b3, b4, b5, b6, b7, b8] := by
  obtain _ | ⟨b0, l⟩ := l; · simp at h
  obtain _ | ⟨b1, l⟩ := l; · simp at h
  obtain _ | ⟨b2, l⟩ := l; · simp at h
  obtain _ | ⟨b3, l⟩ := l; · simp at h
  obtain _ | ⟨b4, l⟩ := l; · simp at h
  obtain _ | ⟨b5, l⟩ := l; · simp at h
  obtain _ | ⟨b6, l⟩ := l; · simp at h
  obtain _ | ⟨b7, l⟩ := l; · simp at h
  obtain _ | ⟨b8, l⟩ := l; · simp at h
  obtain _ | ⟨b9, l⟩ := l
  · exact ⟨b0, b1, b2, b3, b4, b5, b6, b7, b8, rfl⟩
  · simp at h

/-- setting an index leaves every other index unchanged. -/
theorem getD_set_of_ne (l : List Nat) (k j v : Nat) (h : k ≠ j) :
    (l.set k v).getD j 0 = l.getD j 0 := by
  simp [List.getD, List.getElem?_set_ne h]

/-- a key that appears in the registry makes the lookup loop succeed. -/
theorem get_interface_setting_present
    (settings : List (Nat × interface_settings)) (i : Nat)
    (h : ∃ p ∈ settings, p.1 = i) :
    ∃ st, get_interface_setting settings i = .ok st := by
  induction settings with
  | nil => simp at h
  | cons p rest ih =>
    by_cases hp : p.1 = i
    · exact ⟨p.2, by simp [get_interface_setting, hp]⟩
    · obtain ⟨q, hq, hqi⟩ := h
      rcases List.mem_cons.mp hq with rfl | hq'
      · exact absurd hqi hp
      · obtain ⟨st, hst⟩ := ih ⟨q, hq', hqi⟩
        exact ⟨st, by simp [get_interface_setting, hp, hst]⟩

/-- a key that appears nowhere in the registry makes the lookup loop fall
through to the throw. -/
theorem get_interface_setting_absent
    (settings : List (Nat × interface_settings)) (i : Nat)
    (h : ∀ p ∈ settings, p.1 ≠ i) :
    get_interface_setting settings i = .error .argument_out_of_domain := by
  induction settings with
  | nil => rfl
  | cons p rest ih =>
    have hp : p.1 ≠ i := h p (List.mem_cons_self p rest)
    simp only [get_interface_setting, hp, if_false]
    exact ih fun q hq => h q (List.mem_cons_of_mem p hq)

/-- total byte count of the streams of a list of interfaces, when each
stream is as long as its advertised `total_length`. -/
theorem stream_length_sum (ifaces : List usb_interface_impl)
    (h : ∀ i ∈ ifaces, (i.descriptor_stream.map List.length).sum = i.total_length) :
    (((ifaces.map usb_interface_impl.descriptor_stream).flatten).map
        List.length).sum =
      (ifaces.map usb_interface_impl.total_length).sum := by
  induction ifaces with
  | nil => simp
  | cons x xs ih =>
    simp only [List.map_cons, List.flatten_cons, List.map_append,
      List.sum_append, List.sum_cons]
    rw [h x (List.mem_cons_self x xs),
      ih fun i hi => h i (List.mem_cons_of_mem x hi)]

/-- header bytes 2 and 3 of a freshly constructed configuration decode to
the `u16`-wrapped total length. -/
theorem get_total_length_construct (init : List Nat) (h9 : init.length = 9)
    (ifaces : List usb_interface_impl) (sp rw : Bool) (mp : Nat) :
    (usb_configuration.construct init ifaces sp rw mp).get_total_length =
      (9 + (ifaces.map usb_interface_impl.total_length).sum) % 65536 := by
  obtain ⟨b0, b1, b2, b3, b4, b5, b6, b7, b8, rfl⟩ := exists_nine init h9
  have hfold : ifaces.foldl (fun w i => (w + i.total_length) % 65536) 9 =
      (9 + (ifaces.map usb_interface_impl.total_length).sum) % 65536 := by
    have h := foldl_total_length_mod ifaces 9
    norm_num at h
    exact h
  simp only [usb_configuration.construct, usb_configuration.get_total_length,
    List.set, List.getD, hfold]
  exact decode_pack_u16_le _ (Nat.mod_lt _ (by norm_num))

/-- a small settings registry used as a concrete input: alternate setting 0
(one endpoint, HID) and alternate setting 2 (five endpoints, AUDIO). -/
def sample_settings : List (Nat × interface_settings) :=
  [(0, { m_num_endpoints := 1, m_class := .HID, m_subclass := 0,
         m_protocol := 0, m_str_name_idx := 0 }),
   (2, { m_num_endpoints := 5, m_class := .AUDIO_DEVICE, m_subclass := 6,
         m_protocol := 7, m_str_name_idx := 8 })]

/-- the interface state produced by constructing interface number 3 over
`sample_settings` from a zeroed stack array. -/
def sample_interface : usb_interface :=
  { m_packed_data := [9, 4, 3, 0, 1, 3, 0, 0, 0],
    m_settings := sample_settings, m_selected_setting_number := 0 }

/-!
Claim theorems.
-/

/-- C2, as stated, is false: `total_length()` returns `size_t`, the
accumulator is a `u16`, so a sum that reaches `2 ^ 16` wraps.  A single
interface of total length 65545 yields `get_total_length() = 18`, not
65554. -/
theorem C2_counterexample :
    (usb_configuration.construct (List.replicate 9 0)
        [usb_interface_impl.mk 65545 []] false false 0).get_total_length ≠
      9 + ([usb_interface_impl.mk 65545 []].map
          usb_interface_impl.total_length).sum := by
  decide

/-- C2 (amended): `get_total_length()` returns `9 + Σ Ik.total_length()`
reduced modulo `2 ^ 16`; the packing and decoding round-trip exactly
whenever `9` plus the sum fits in a `u16`. -/
theorem C2_get_total_length (init : List Nat) (h9 : init.length = 9)
    (ifaces : List usb_interface_impl) (sp rw : Bool) (mp : Nat) :
    (usb_configuration.construct init ifaces sp rw mp).get_total_length =
      (9 + (ifaces.map usb_interface_impl.total_length).sum) % 65536 ∧
    (9 + (ifaces.map usb_interface_impl.total_length).sum ≤ 65535 →
      (usb_configuration.construct init ifaces sp rw mp).get_total_length =
        9 + (ifaces.map usb_interface_impl.total_length).sum) := by
  refine ⟨get_total_length_construct init h9 ifaces sp rw mp, fun hle => ?_⟩
  rw [get_total_length_construct init h9 ifaces sp rw mp]
  exact Nat.mod_eq_of_lt (by omega)

/-- C2 witness: the amended theorem evaluated on one interface of total
length 10. -/
theorem C2_witness :
    (usb_configuration.construct (List.replicate 9 7)
        [usb_interface_impl.mk 10 []] false true 50).get_total_length =
      (9 + ([usb_interface_impl.mk 10 []].map
          usb_interface_impl.total_length).sum) % 65536 ∧
    (9 + ([usb_interface_impl.mk 10 []].map
        usb_interface_impl.total_length).sum ≤ 65535 →
      (usb_configuration.construct (List.replicate 9 7)
          [usb_interface_impl.mk 10 []] false true 50).get_total_length =
        9 + ([usb_interface_impl.mk 10 []].map
            usb_interface_impl.total_length).sum) :=
  C2_get_total_length (List.replicate 9 7) (by decide)
    [usb_interface_impl.mk 10 []] false true 50

/-- C8: `pack_u16_le 0x1234 = (0x34, 0x12)`, and recombining the two bytes
little-endian reproduces every input below `2 ^ 16`. -/
theorem C8_pack_u16_le (v : Nat) (hv : v ≤ 0xFFFF) :
    pack_u16_le 0x1234 = (0x34, 0x12) ∧
    (pack_u16_le v).1 + 256 * (pack_u16_le v).2 = v := by
  refine ⟨by decide, ?_⟩
  rw [pack_u16_le_fst, pack_u16_le_snd]
  omega

/-- C8 witness: the round trip evaluated at `0xBEEF`. -/
theorem C8_witness :
    pack_u16_le 0x1234 = (0x34, 0x12) ∧
    (pack_u16_le 0xBEEF).1 + 256 * (pack_u16_le 0xBEEF).2 = 0xBEEF :=
  C8_pack_u16_le 0xBEEF (by decide)

/-- C9: the stored attribute byte is `0x80` with bit 6 set iff self-powered
and bit 5 set iff remote-wakeup, bits 0 to 4 clear; `get_attributes` decodes
the two flags back and `get_max_power` returns the max-power byte
verbatim. -/
theorem C9_attributes (init : List Nat) (h9 : init.length = 9)
    (ifaces : List usb_interface_impl) (sp rw : Bool) (mp : Nat) :
    (usb_configuration.construct init ifaces sp rw mp).m_packed_data.getD 7 0 =
      128 + (if sp then 64 else 0) + (if rw then 32 else 0) ∧
    ((usb_configuration.construct init ifaces sp rw
        mp).m_packed_data.getD 7 0).testBit 7 = true ∧
    ((usb_configuration.construct init ifaces sp rw
        mp).m_packed_data.getD 7 0).testBit 6 = sp ∧
    ((usb_configuration.construct init ifaces sp rw
        mp).m_packed_data.getD 7 0).testBit 5 = rw ∧
    (∀ j, j < 5 →
      ((usb_configuration.construct init ifaces sp rw
          mp).m_packed_data.getD 7 0).testBit j = false) ∧
    (usb_configuration.construct init ifaces sp rw mp).get_attributes =
      { self_powered := sp, remote_wakeup := rw } ∧
    (usb_configuration.construct init ifaces sp rw mp).get_max_power = mp := by
  obtain ⟨b0, b1, b2, b3, b4, b5, b6, b7, b8, rfl⟩ := exists_nine init h9
  refine ⟨?_, ?_, ?_, ?_, ?_, ?_, ?_⟩ <;>
    simp [usb_configuration.construct, usb_configuration.get_attributes,
      usb_configuration.get_max_power, List.set, List.getD] <;>
    cases sp <;> cases rw <;> decide

/-- C9 witness: the attribute theorem evaluated at self-powered true,
remote-wakeup false, max power 50, matching the spec's example scenario
(attribute byte `0b1100_0000`, `bMaxPower = 50`). -/
theorem C9_witness :
    (usb_configuration.construct (List.replicate 9 0) [] true false
        50).m_packed_data.getD 7 0 =
      128 + (if true then 64 else 0) + (if false then 32 else 0) ∧
    ((usb_configuration.construct (List.replicate 9 0) [] true false
        50).m_packed_data.getD 7 0).testBit 7 = true ∧
    ((usb_configuration.construct (List.replicate 9 0) [] true false
        50).m_packed_data.getD 7 0).testBit 6 = true ∧
    ((usb_configuration.construct (List.replicate 9 0) [] true false
        50).m_packed_data.getD 7 0).testBit 5 = false ∧
    (∀ j, j < 5 →
      ((usb_configuration.construct (List.replicate 9 0) [] true false
          50).m_packed_data.getD 7 0).testBit j = false) ∧
    (usb_configuration.construct (List.replicate 9 0) [] true false
        50).get_attributes =
      { self_powered := true, remote_wakeup := false } ∧
    (usb_configuration.construct (List.replicate 9 0) [] true false
        50).get_max_power = 50 :=
  C9_attributes (List.replicate 9 0) (by decide) [] true false 50

/-- C10: the configuration constructor writes header bytes 0, 1, 2, 3, 4, 7
and 8 and leaves bytes 5 and 6 holding whatever the stack array started
with, so `get_number` returns the indeterminate initial byte 5: two
constructions identical except for the initial array contents agree on
every written byte and report byte 5 and 6 straight from their
initial arrays. -/
theorem C10_uninitialized_bytes (init init' : List Nat) (h9 : init.length = 9)
    (h9' : init'.length = 9) (ifaces : List usb_interface_impl) (sp rw : Bool)
    (mp : Nat) :
    (usb_configuration.construct init ifaces sp rw mp).m_packed_data.getD 5 0 =
      init.getD 5 0 ∧
    (usb_configuration.construct init ifaces sp rw mp).m_packed_data.getD 6 0 =
      init.getD 6 0 ∧
    (usb_configuration.construct init ifaces sp rw mp).get_number =
      init.getD 5 0 ∧
    (∀ j, j ≠ 5 → j ≠ 6 →
      (usb_configuration.construct init ifaces sp rw mp).m_packed_data.getD
          j 0 =
        (usb_configuration.construct init' ifaces sp rw
            mp).m_packed_data.getD j 0) := by
  obtain ⟨b0, b1, b2, b3, b4, b5, b6, b7, b8, rfl⟩ := exists_nine init h9
  obtain ⟨c0, c1, c2, c3, c4, c5, c6, c7, c8, rfl⟩ := exists_nine init' h9'
  refine ⟨?_, ?_, ?_, ?_⟩
  · simp [usb_configuration.construct, List.set, List.getD]
  · simp [usb_configuration.construct, List.set, List.getD]
  · simp [usb_configuration.construct, usb_configuration.get_number, List.set,
      List.getD]
  · intro j hj5 hj6
    by_cases hjlt : j < 9
    · interval_cases j
      · simp [usb_configuration.construct, List.set, List.getD]
      · simp [usb_configuration.construct, List.set, List.getD]
      · simp [usb_configuration.construct, List.set, List.getD]
      · simp [usb_configuration.construct, List.set, List.getD]
      · simp [usb_configuration.construct, List.set, List.getD]
      · exact absurd rfl hj5
      · exact absurd rfl hj6
      · simp [usb_configuration.construct, List.set, List.getD]
      · simp [usb_configuration.construct, List.set, List.getD]
    · have hlen : ∀ l : List Nat, l.length = 9 → l.getD j 0 = 0 := by
        intro l hl
        have : l.length ≤ j := by omega
        simp [List.getD, List.getElem?_eq_none this]
      rw [hlen _ (by simp [usb_configuration.construct, List.set]),
        hlen _ (by simp [usb_configuration.construct, List.set])]

/-- C10 witness: two constructions from different initial array contents,
one zeroed and one counting up. -/
theorem C10_witness :
    (usb_configuration.construct (List.replicate 9 0) [] false false
        0).m_packed_data.getD 5 0 = (List.replicate 9 0).getD 5 0 ∧
    (usb_configuration.construct (List.replicate 9 0) [] false false
        0).m_packed_data.getD 6 0 = (List.replicate 9 0).getD 6 0 ∧
    (usb_configuration.construct (List.replicate 9 0) [] false false
        0).get_number = (List.replicate 9 0).getD 5 0 ∧
    (∀ j, j ≠ 5 → j ≠ 6 →
      (usb_configuration.construct (List.replicate 9 0) [] false false
          0).m_packed_data.getD j 0 =
        (usb_configuration.construct [10, 11, 12, 13, 14, 15, 16, 17, 18] []
            false false 0).m_packed_data.getD j 0) :=
  C10_uninitialized_bytes (List.replicate 9 0) [10, 11, 12, 13, 14, 15, 16, 17, 18]
    (by decide) (by decide) [] false false 0

/-- C4: constructing `interface_settings` with class code
`USE_INTERFACE_DESCRIPTOR`, `HUB` or `BILLBOARD` throws
`argument_out_of_domain` and produces no object; any other class code
yields an object holding the supplied fields verbatim. -/
theorem C4_interface_settings_make (p_num_endpoints p_subclass p_protocol
    p_str_name_idx : Nat) (p_class : usb_class_code) :
    ((p_class = .USE_INTERFACE_DESCRIPTOR ∨ p_class = .HUB ∨
        p_class = .BILLBOARD) →
      interface_settings.make p_num_endpoints p_class p_subclass p_protocol
          p_str_name_idx = .error .argument_out_of_domain) ∧
    (¬(p_class = .USE_INTERFACE_DESCRIPTOR ∨ p_class = .HUB ∨
        p_class = .BILLBOARD) →
      interface_settings.make p_num_endpoints p_class p_subclass p_protocol
          p_str_name_idx =
        .ok { m_num_endpoints := p_num_endpoints, m_class := p_class,
              m_subclass := p_subclass, m_protocol := p_protocol,
              m_str_name_idx := p_str_name_idx }) := by
  constructor
  · intro h
    unfold interface_settings.make
    rw [if_pos h]
  · intro h
    unfold interface_settings.make
    rw [if_neg h]

/-- C4 witness: `HUB` is rejected, `HID` is accepted with the fields
stored. -/
theorem C4_witness :
    interface_settings.make 1 .HUB 2 3 4 = .error .argument_out_of_domain ∧
    interface_settings.make 1 .HID 2 3 4 =
      .ok { m_num_endpoints := 1, m_class := .HID, m_subclass := 2,
            m_protocol := 3, m_str_name_idx := 4 } :=
  ⟨(C4_interface_settings_make 1 2 3 4 .HUB).1 (Or.inr (Or.inl rfl)),
   (C4_interface_settings_make 1 2 3 4 .HID).2 (by decide)⟩

/-- C3: for an index present in the registry, `set_setting` succeeds,
records the index as selected and rewrites exactly header bytes 4 to 8 from
the looked-up setting; for an absent index it throws
`argument_out_of_domain` with the interface state, header bytes included,
byte-for-byte unchanged. -/
theorem C3_set_setting (s : usb_interface) (i : Nat)
    (h9 : s.m_packed_data.length = 9) :
    ((∃ p ∈ s.m_settings, p.1 = i) →
      ∃ st, get_interface_setting s.m_settings i = .ok st ∧
        (s.set_setting i).err = none ∧
        (s.set_setting i).state.get_selected_setting_number = i ∧
        (s.set_setting i).state.m_packed_data.getD 4 0 = st.m_num_endpoints ∧
        (s.set_setting i).state.m_packed_data.getD 5 0 = st.m_class.toU8 ∧
        (s.set_setting i).state.m_packed_data.getD 6 0 = st.m_subclass ∧
        (s.set_setting i).state.m_packed_data.getD 7 0 = st.m_protocol ∧
        (s.set_setting i).state.m_packed_data.getD 8 0 = st.m_str_name_idx ∧
        ∀ j, j < 4 →
          (s.set_setting i).state.m_packed_data.getD j 0 =
            s.m_packed_data.getD j 0) ∧
    ((∀ p ∈ s.m_settings, p.1 ≠ i) →
      (s.set_setting i).err = some .argument_out_of_domain ∧
      (s.set_setting i).state = s) := by
  obtain ⟨pd, settings, sel⟩ := s
  constructor
  · intro hpres
    obtain ⟨st, hst⟩ := get_interface_setting_present settings i hpres
    obtain ⟨b0, b1, b2, b3, b4, b5, b6, b7, b8, rfl⟩ := exists_nine pd h9
    refine ⟨st, hst, ?_, ?_, ?_, ?_, ?_, ?_, ?_, ?_⟩ <;>
      try simp [usb_interface.set_setting, hst,
        usb_interface.get_selected_setting_number, List.set, List.getD]
    intro j hj
    interval_cases j <;>
      simp [usb_interface.set_setting, hst, List.set, List.getD]
  · intro habs
    have herr := get_interface_setting_absent settings i habs
    simp [usb_interface.set_setting, herr]

/-- C3 witness: `sample_interface` with present index 2 (hypotheses of both
branches left as stated; the length hypothesis is discharged by
evaluation). -/
theorem C3_witness :
    ((∃ p ∈ sample_interface.m_settings, p.1 = 2) →
      ∃ st, get_interface_setting sample_interface.m_settings 2 = .ok st ∧
        (sample_interface.set_setting 2).err = none ∧
        (sample_interface.set_setting 2).state.get_selected_setting_number =
          2 ∧
        (sample_interface.set_setting 2).state.m_packed_data.getD 4 0 =
          st.m_num_endpoints ∧
        (sample_interface.set_setting 2).state.m_packed_data.getD 5 0 =
          st.m_class.toU8 ∧
        (sample_interface.set_setting 2).state.m_packed_data.getD 6 0 =
          st.m_subclass ∧
        (sample_interface.set_setting 2).state.m_packed_data.getD 7 0 =
          st.m_protocol ∧
        (sample_interface.set_setting 2).state.m_packed_data.getD 8 0 =
          st.m_str_name_idx ∧
        ∀ j, j < 4 →
          (sample_interface.set_setting 2).state.m_packed_data.getD j 0 =
            sample_interface.m_packed_data.getD j 0) ∧
    ((∀ p ∈ sample_interface.m_settings, p.1 ≠ 2) →
      (sample_interface.set_setting 2).err = some .argument_out_of_domain ∧
      (sample_interface.set_setting 2).state = sample_interface) :=
  C3_set_setting sample_interface 2 (by decide)

/-- C7 is contradicted by the code: no branch of `set_setting` writes
through `m_ctrl_endpoint` (the notification exists only as a comment), so a
successful call, here selecting setting 0 of `sample_interface`, completes
with an empty control-endpoint write trace. -/
theorem C7_no_ctrl_write :
    (∀ (s : usb_interface) (i : Nat), (s.set_setting i).ctrl_writes = []) ∧
    (sample_interface.set_setting 0).err = none ∧
    (sample_interface.set_setting 0).ctrl_writes = [] := by
  refine ⟨fun s i => ?_, by decide, by decide⟩
  cases h : get_interface_setting s.m_settings i <;>
    simp [usb_interface.set_setting, h]

/-- C5: constructing an interface over a registry containing index 0
succeeds, selects setting 0 and fills header bytes 4 to 8 from setting 0's
fields; when index 0 is absent the constructor throws
`argument_out_of_domain`. -/
theorem C5_construct (init : List Nat) (h9 : init.length = 9)
    (init_sel p_iface_number : Nat)
    (p_settings : List (Nat × interface_settings)) :
    ((∃ p ∈ p_settings, p.1 = 0) →
      ∃ st0 s, get_interface_setting p_settings 0 = .ok st0 ∧
        usb_interface.construct init init_sel p_iface_number p_settings =
          .ok s ∧
        s.get_selected_setting_number = 0 ∧
        s.m_packed_data.getD 4 0 = st0.m_num_endpoints ∧
        s.m_packed_data.getD 5 0 = st0.m_class.toU8 ∧
        s.m_packed_data.getD 6 0 = st0.m_subclass ∧
        s.m_packed_data.getD 7 0 = st0.m_protocol ∧
        s.m_packed_data.getD 8 0 = st0.m_str_name_idx) ∧
    ((∀ p ∈ p_settings, p.1 ≠ 0) →
      usb_interface.construct init init_sel p_iface_number p_settings =
        .error .argument_out_of_domain) := by
  constructor
  · intro hpres
    obtain ⟨st0, hst⟩ := get_interface_setting_present p_settings 0 hpres
    obtain ⟨b0, b1, b2, b3, b4, b5, b6, b7, b8, rfl⟩ := exists_nine init h9
    refine ⟨st0,
      { m_packed_data := [9, 4, p_iface_number, 0, st0.m_num_endpoints,
          st0.m_class.toU8, st0.m_subclass, st0.m_protocol,
          st0.m_str_name_idx],
        m_settings := p_settings, m_selected_setting_number := 0 },
      hst, ?_, ?_, ?_, ?_, ?_, ?_, ?_⟩ <;>
      simp [usb_interface.construct, usb_interface.set_setting, hst,
        usb_interface.get_selected_setting_number, descriptor_type.toByte,
        List.set, List.getD]
  · intro habs
    have herr := get_interface_setting_absent p_settings 0 habs
    simp [usb_interface.construct, usb_interface.set_setting, herr]

/-- C5 witness: construction over `sample_settings` (which contains index
0) from a zeroed stack array with indeterminate selected-setting byte 7. -/
theorem C5_witness :
    ((∃ p ∈ sample_settings, p.1 = 0) →
      ∃ st0 s, get_interface_setting sample_settings 0 = .ok st0 ∧
        usb_interface.construct (List.replicate 9 0) 7 3 sample_settings =
          .ok s ∧
        s.get_selected_setting_number = 0 ∧
        s.m_packed_data.getD 4 0 = st0.m_num_endpoints ∧
        s.m_packed_data.getD 5 0 = st0.m_class.toU8 ∧
        s.m_packed_data.getD 6 0 = st0.m_subclass ∧
        s.m_packed_data.getD 7 0 = st0.m_protocol ∧
        s.m_packed_data.getD 8 0 = st0.m_str_name_idx) ∧
    ((∀ p ∈ sample_settings, p.1 ≠ 0) →
      usb_interface.construct (List.replicate 9 0) 7 3 sample_settings =
        .error .argument_out_of_domain) :=
  C5_construct (List.replicate 9 0) (by decide) 7 3 sample_settings

/-- C6, as stated, is false: `get_selected_setting_number` returns the
member `m_selected_setting_number`, not header byte 3, and `set_setting`
never rewrites byte 3 (`bAlternateSetting`); after constructing over
`sample_settings` and successfully selecting setting 2, the accessor
returns 2 while header byte 3 still holds 0. -/
theorem C6_counterexample :
    usb_interface.construct (List.replicate 9 0) 0 3 sample_settings =
      .ok sample_interface ∧
    (sample_interface.set_setting 2).err = none ∧
    (sample_interface.set_setting 2).state.get_selected_setting_number ≠
      (sample_interface.set_setting 2).state.m_packed_data.getD 3 0 := by
  refine ⟨rfl, rfl, by decide⟩

/-- C6 (amended): in every state reachable by construction followed by
successful `set_setting` calls, `get_interface_number()` is a pure read of
header byte 2; header byte 3 is never rewritten after construction and
stays 0, so `get_selected_setting_number()` (a pure read of the stored
member) agrees with header byte 3 exactly when the selected setting is
0. -/
theorem C6_accessors (s : usb_interface) (h : usb_interface.reachable s) :
    s.get_interface_number = s.m_packed_data.getD 2 0 ∧
    s.m_packed_data.getD 3 0 = 0 ∧
    (s.get_selected_setting_number = s.m_packed_data.getD 3 0 ↔
      s.get_selected_setting_number = 0) := by
  have h3 : s.m_packed_data.getD 3 0 = 0 := by
    induction h with
    | constructed hinit hc =>
      rename_i init init_sel p_iface_number p_settings s'
      obtain ⟨b0, b1, b2, b3, b4, b5, b6, b7, b8, rfl⟩ :=
        exists_nine init hinit
      cases hl : get_interface_setting p_settings 0 with
      | error e =>
        simp [usb_interface.construct, usb_interface.set_setting, hl] at hc
      | ok st =>
        have hcr : usb_interface.construct
            [b0, b1, b2, b3, b4, b5, b6, b7, b8] init_sel p_iface_number
            p_settings =
            .ok { m_packed_data := [9, 4, p_iface_number, 0,
                    st.m_num_endpoints, st.m_class.toU8, st.m_subclass,
                    st.m_protocol, st.m_str_name_idx],
                  m_settings := p_settings,
                  m_selected_setting_number := 0 } := by
          simp [usb_interface.construct, usb_interface.set_setting, hl,
            descriptor_type.toByte, List.set]
        rw [hcr] at hc
        obtain rfl := Except.ok.inj hc
        simp [List.getD]
    | step hr herr ih =>
      rename_i s'' i
      cases hl : get_interface_setting s''.m_settings i with
      | error e => simp [usb_interface.set_setting, hl] at herr
      | ok st =>
        simp only [usb_interface.set_setting, hl]
        rw [getD_set_of_ne _ _ _ _ (by decide),
          getD_set_of_ne _ _ _ _ (by decide),
          getD_set_of_ne _ _ _ _ (by decide),
          getD_set_of_ne _ _ _ _ (by decide),
          getD_set_of_ne _ _ _ _ (by decide)]
        exact ih
  exact ⟨rfl, h3, by rw [h3]⟩

/-- C6 witness: the amended theorem evaluated on the concretely reachable
state `sample_interface`. -/
theorem C6_witness :
    sample_interface.get_interface_number =
      sample_interface.m_packed_data.getD 2 0 ∧
    sample_interface.m_packed_data.getD 3 0 = 0 ∧
    (sample_interface.get_selected_setting_number =
        sample_interface.m_packed_data.getD 3 0 ↔
      sample_interface.get_selected_setting_number = 0) :=
  C6_accessors sample_interface
    (usb_interface.reachable.constructed
      (show (List.replicate 9 (0 : Nat)).length = 9 by decide)
      (show usb_interface.construct (List.replicate 9 0) 0 3 sample_settings =
          .ok sample_interface by rfl))

/-- C1 fails in the overflow case its universal wording includes: one
interface whose stream is a single 65536-byte chunk (matching its
`total_length()`) makes the configuration push 9 + 65536 bytes while
`get_total_length()` reports `(9 + 65536) % 65536 = 9`. -/
theorem C1_counterexample :
    (((usb_interface_impl.mk 65536 [List.replicate 65536 0]).descriptor_stream.map
        List.length).sum =
      (usb_interface_impl.mk 65536 [List.replicate 65536 0]).total_length) ∧
    (((usb_configuration.construct (List.replicate 9 0)
          [usb_interface_impl.mk 65536 [List.replicate 65536 0]] false false
          0).write_descriptors.map List.length).sum ≠
      (usb_configuration.construct (List.replicate 9 0)
          [usb_interface_impl.mk 65536 [List.replicate 65536 0]] false false
          0).get_total_length) := by
  constructor
  · show ([List.replicate 65536 (0 : Nat)].map List.length).sum = 65536
    simp only [List.map_cons, List.map_nil, List.length_replicate,
      List.sum_cons, List.sum_nil, Nat.add_zero]
  · have hlen : (usb_configuration.construct (List.replicate 9 0)
        [usb_interface_impl.mk 65536 [List.replicate 65536 0]] false false
        0).m_packed_data.length = 9 := by
      simp only [usb_configuration.construct, List.length_set,
        List.length_replicate]
    have hify : (usb_configuration.construct (List.replicate 9 0)
        [usb_interface_impl.mk 65536 [List.replicate 65536 0]] false false
        0).m_ifaces =
        [usb_interface_impl.mk 65536 [List.replicate 65536 0]] := rfl
    have hwd : (usb_configuration.construct (List.replicate 9 0)
        [usb_interface_impl.mk 65536 [List.replicate 65536 0]] false false
        0).write_descriptors =
        (usb_configuration.construct (List.replicate 9 0)
            [usb_interface_impl.mk 65536 [List.replicate 65536 0]] false false
            0).m_packed_data :: [List.replicate 65536 0] := by
      simp only [usb_configuration.write_descriptors, hify, List.map_cons,
        List.map_nil, List.flatten_cons, List.flatten_nil, List.append_nil]
    rw [get_total_length_construct _ (by decide), hwd, List.map_cons,
      List.sum_cons, hlen]
    simp only [List.map_cons, List.map_nil, List.sum_cons, List.sum_nil,
      List.length_replicate]
    norm_num

/-- C1 (amended): `write_descriptors` dispatches the configuration's own
9-byte stored header first, then every owned interface's chunks in
construction order; when each interface's stream holds exactly
`total_length()` bytes and the header-plus-sum total fits in a `u16`, the
total number of bytes pushed equals `get_total_length()`. -/
theorem C1_write_descriptors (init : List Nat) (h9 : init.length = 9)
    (ifaces : List usb_interface_impl) (sp rw : Bool) (mp : Nat)
    (hstreams : ∀ i ∈ ifaces,
      (i.descriptor_stream.map List.length).sum = i.total_length)
    (hfit : 9 + (ifaces.map usb_interface_impl.total_length).sum ≤ 65535) :
    (usb_configuration.construct init ifaces sp rw mp).write_descriptors =
      (usb_configuration.construct init ifaces sp rw mp).m_packed_data ::
        (ifaces.map usb_interface_impl.descriptor_stream).flatten ∧
    (usb_configuration.construct init ifaces sp rw mp).m_packed_data.length =
      9 ∧
    ((usb_configuration.construct init ifaces sp rw mp).write_descriptors.map
        List.length).sum =
      (usb_configuration.construct init ifaces sp rw mp).get_total_length := by
  have hlen :
      (usb_configuration.construct init ifaces sp rw mp).m_packed_data.length =
        9 := by
    simp [usb_configuration.construct, h9]
  refine ⟨rfl, hlen, ?_⟩
  have hwd : (usb_configuration.construct init ifaces sp rw
      mp).write_descriptors =
      (usb_configuration.construct init ifaces sp rw mp).m_packed_data ::
        (ifaces.map usb_interface_impl.descriptor_stream).flatten := rfl
  rw [hwd, List.map_cons, List.sum_cons, hlen,
    stream_length_sum ifaces hstreams,
    get_total_length_construct init h9 ifaces sp rw mp,
    Nat.mod_eq_of_lt (by omega)]

/-- C1 witness: one interface pushing a single 3-byte chunk; the stream is
header chunk then interface chunk and the byte total matches
`get_total_length()`. -/
theorem C1_witness :
    (usb_configuration.construct (List.replicate 9 0)
        [usb_interface_impl.mk 3 [[1, 2, 3]]] true true 25).write_descriptors =
      (usb_configuration.construct (List.replicate 9 0)
          [usb_interface_impl.mk 3 [[1, 2, 3]]] true true 25).m_packed_data ::
        ([usb_interface_impl.mk 3 [[1, 2, 3]]].map
            usb_interface_impl.descriptor_stream).flatten ∧
    (usb_configuration.construct (List.replicate 9 0)
        [usb_interface_impl.mk 3 [[1, 2, 3]]] true true
        25).m_packed_data.length = 9 ∧
    ((usb_configuration.construct (List.replicate 9 0)
        [usb_interface_impl.mk 3 [[1, 2, 3]]] true true 25).write_descriptors.map
        List.length).sum =
      (usb_configuration.construct (List.replicate 9 0)
          [usb_interface_impl.mk 3 [[1, 2, 3]]] true true 25).get_total_length :=
  C1_write_descriptors (List.replicate 9 0) (by decide)
    [usb_interface_impl.mk 3 [[1, 2, 3]]] true true 25 (by decide) (by decide)

end hal
